import Mathlib

/-!
Shallow embedding of `src/api/telegram.js` (repository `Backend-reffer`).

The source file concatenates three variants of the same Vercel webhook handler:
variant 1 (lines 1-178), variant 2 (lines 179-377, the transaction with the
"all reads first, then writes" structure), and variant 3 (lines 378-644, which
factors the reward into `processReferralReward` with its own try/catch).

Modelling conventions:
- A Firestore document is a record of `Option` fields; `none` models a JS
  `undefined` field (and, for `photoURL`/`refferBy`, also `null`, which every
  check in the source conflates with `undefined` through truthiness).
- The store is a pair of keyed maps (`users`, `ref_rewards`); a transaction
  body is a pure state transformer, which is faithful because Firestore runs
  transaction bodies against a consistent snapshot and commits all queued
  writes atomically, serializing conflicting transactions.
- The firebase web SDK rejects a `transaction.get` issued after a queued
  write ("Firestore transactions require all reads to be executed before all
  writes"); variant 1's body re-reads the user document after conditionally
  queueing updates, so that body deterministically aborts whenever one of the
  two early updates was queued.  `txV1` returns `Except.error ()` there.
- `serverTimestamp()` ledger fields are not modelled; nothing reads them.
-/

/-- JS truthiness of an optional string field: `undefined`, `null` and `""`
are falsy, every other string is truthy. -/
def truthyStr : Option String → Bool
  | none => false
  | some s => if s = "" then false else true

/-- JS truthiness of an optional boolean field: only a stored `true` is
truthy (`undefined` and `false` are falsy); this is also exactly the strict
comparison `=== true` used by variant 3. -/
def truthyB : Option Bool → Bool
  | some true => true
  | _ => false

/-- JS `x || 0` on an optional numeric field (used for `referrerData.coins`
and `referrerData.reffer`). -/
def jsOrZero (o : Option Int) : Int := o.getD 0

/-- Applying one field of a Firestore update object: a field present in the
update overrides, an absent one keeps the stored value. -/
def ov {α : Type} (upd old : Option α) : Option α :=
  match upd with
  | some v => some v
  | none => old

/-- A document of the `users` collection.  Every field may be absent, since
Firestore is schemaless and the three variants create documents with
different field sets. -/
structure UserDoc where
  id : Option String := none
  name : Option String := none
  photoURL : Option String := none
  frontendOpened : Option Bool := none
  coins : Option Int := none
  reffer : Option Int := none
  refferBy : Option String := none
  tasksCompleted : Option Int := none
  totalWithdrawals : Option Int := none
  rewardGiven : Option Bool := none
  deriving Repr, DecidableEq

/-- A document of the `ref_rewards` collection (the `createdAt` server
timestamp is not modelled; nothing in the source reads it). -/
structure RewardDoc where
  userId : String
  referrerId : String
  reward : Int
  deriving Repr, DecidableEq

/-- The Firestore state seen by the handler: the `users` collection and the
`ref_rewards` collection, each keyed by a user id. -/
structure Store where
  users : String → Option UserDoc
  rewards : String → Option RewardDoc

/-- The empty store. -/
def emptyStore : Store := ⟨fun _ => none, fun _ => none⟩

/-- A `transaction.update` on an existing document (the source only calls
`update` on documents it has checked or created). -/
def updateUser (s : Store) (k : String) (g : UserDoc → UserDoc) : Store :=
  { s with users := fun q => if q = k then (s.users q).map g else s.users q }

/-- A `transaction.set` on the `ref_rewards` document keyed by `k`. -/
def setReward (s : Store) (k : String) (e : RewardDoc) : Store :=
  { s with rewards := fun q => if q = k then some e else s.rewards q }

/-- The `userUpdates` object accumulated by variant 2's write phase; `none`
models a key that was never added to the object. -/
structure UserUpdates where
  coins : Option Int := none
  reffer : Option Int := none
  tasksCompleted : Option Int := none
  totalWithdrawals : Option Int := none
  rewardGiven : Option Bool := none
  refferBy : Option String := none
  deriving Repr, DecidableEq

/-- `Object.keys(userUpdates).length > 0` is false: no key was ever set. -/
def UserUpdates.isEmptyU (u : UserUpdates) : Bool :=
  u.coins.isNone && u.reffer.isNone && u.tasksCompleted.isNone &&
  u.totalWithdrawals.isNone && u.rewardGiven.isNone && u.refferBy.isNone

/-- Applying `transaction.update(userRef, userUpdates)` to the stored doc. -/
def applyU (u : UserUpdates) (d : UserDoc) : UserDoc :=
  { d with coins := ov u.coins d.coins, reffer := ov u.reffer d.reffer,
           tasksCompleted := ov u.tasksCompleted d.tasksCompleted,
           totalWithdrawals := ov u.totalWithdrawals d.totalWithdrawals,
           rewardGiven := ov u.rewardGiven d.rewardGiven,
           refferBy := ov u.refferBy d.refferBy }

/-- Variant 2 line 333: `if (Object.keys(userUpdates).length > 0)
transaction.update(userRef, userUpdates)`. -/
def commitUser (s : Store) (k : String) (u : UserUpdates) : Store :=
  if u.isEmptyU then s else updateUser s k (applyU u)

/-- The outcome enum of the spec, used to label which early return or branch
of the reward logic a run took (the source functions return nothing; the
label records the branch). -/
inductive Outcome where
  | Rewarded
  | AlreadyRewarded
  | NoReferrer
  | SelfReferral
  | SubjectMissing
  deriving Repr, DecidableEq

/-- Variant 2's `runTransaction` body, src lines 268-336.  Read phase: user
doc, then (conditionally) the referrer doc; write phase: defaults when
`coins === undefined`, `refferBy` when newly determined, then the reward
writes guarded by `referrerDoc && referrerDoc.exists() &&
!userData.rewardGiven`, and finally the accumulated `userUpdates`. -/
def txV2 (s : Store) (userId : String) (referralId : Option String) : Store :=
  match s.users userId with
  | none => s
  | some userData =>
    let currentReferrer := userData.refferBy
    let finalReferrerId :=
      if truthyStr currentReferrer then currentReferrer
      else
        match referralId with
        | some r => if r ≠ "" ∧ r ≠ userId then some r else currentReferrer
        | none => currentReferrer
    let referrerRead : Option (Option UserDoc) :=
      match finalReferrerId with
      | some fr =>
        if fr ≠ "" ∧ truthyB userData.rewardGiven = false then some (s.users fr) else none
      | none => none
    let u0 : UserUpdates :=
      if userData.coins.isNone then
        { coins := some 0, reffer := some 0, tasksCompleted := some 0,
          totalWithdrawals := some 0, rewardGiven := some false }
      else {}
    let u1 :=
      if truthyStr currentReferrer = false ∧ truthyStr finalReferrerId = true then
        { u0 with refferBy := finalReferrerId }
      else u0
    match referrerRead, finalReferrerId with
    | some (some refData), some fr =>
      if truthyB userData.rewardGiven = false then
        let u2 := { u1 with rewardGiven := some true }
        let s1 := updateUser s fr (fun dcur =>
          { dcur with coins := some (jsOrZero refData.coins + 500),
                      reffer := some (jsOrZero refData.reffer + 1) })
        let s2 := setReward s1 userId ⟨userId, fr, 500⟩
        commitUser s2 userId u2
      else commitUser s userId u1
    | _, _ => commitUser s userId u1

/-- Variant 3's referrer credit, src lines 511-514:
`transaction.set(referrerRef, { coins: increment(500), reffer: increment(1) },
{ merge: true })`.  A merge-set with `increment` creates the document when it
is absent (with the increments applied to 0). -/
def mergeIncrementReferrer (s : Store) (k : String) : Store :=
  let newDoc : UserDoc :=
    match s.users k with
    | some d => { d with coins := some (jsOrZero d.coins + 500),
                         reffer := some (jsOrZero d.reffer + 1) }
    | none => { coins := some 500, reffer := some 1 }
  { s with users := fun q => if q = k then some newDoc else s.users q }

/-- Variant 3's `processReferralReward`, src lines 477-533.  The transaction
body returns the (possibly updated) store together with the label of the
branch it exited through. -/
def processReferralReward (s : Store) (userId : String) (referralId : Option String) :
    Store × Outcome :=
  match referralId with
  | none => (s, Outcome.NoReferrer)
  | some rid =>
    if rid = "" then (s, Outcome.NoReferrer)
    else if rid = userId then (s, Outcome.SelfReferral)
    else
      match s.users userId with
      | none => (s, Outcome.SubjectMissing)
      | some userData =>
        if truthyB userData.rewardGiven then (s, Outcome.AlreadyRewarded)
        else
          let assignNew := truthyStr userData.refferBy = false
          let s1 := if assignNew then
              updateUser s userId (fun d => { d with refferBy := some rid })
            else s
          let currentReferrer := if assignNew then some rid else userData.refferBy
          match currentReferrer with
          | none => (s1, Outcome.NoReferrer)
          | some cr =>
            if cr = "" then (s1, Outcome.NoReferrer)
            else
              let s2 := mergeIncrementReferrer s1 cr
              let s3 := updateUser s2 userId (fun d => { d with rewardGiven := some true })
              let s4 := setReward s3 userId ⟨userId, cr, 500⟩
              (s4, Outcome.Rewarded)

/-- The tail of variant 1's transaction body (src lines 103-134), reached
only when no write was queued before the re-read: the reward branch guarded
by `freshData.frontendOpened && !freshData.rewardGiven && currentReferrerId`
and `referrerDoc.exists()`. -/
def txV1reward (s : Store) (userId : String) (data : UserDoc) : Except Unit Store :=
  match data.refferBy with
  | some cr =>
    if cr ≠ "" ∧ truthyB data.frontendOpened = true ∧ truthyB data.rewardGiven = false then
      match s.users cr with
      | some referrerData =>
        let s1 := updateUser s cr (fun d =>
          { d with coins := some (jsOrZero referrerData.coins + 500),
                   reffer := some (jsOrZero referrerData.reffer + 1) })
        let s2 := updateUser s1 userId (fun d => { d with rewardGiven := some true })
        let s3 := setReward s2 userId ⟨userId, cr, 500⟩
        Except.ok s3
      | none => Except.ok s
    else Except.ok s
  | none => Except.ok s

/-- Variant 1's `runTransaction` body, src lines 89-135.  It conditionally
queues two updates (defaults at line 96, `refferBy` at line 100) and then
re-reads the user document at line 104; the firebase web SDK rejects a read
after a queued write, so the body aborts with an error exactly when one of
those writes was queued (`Except.error ()`), discarding all queued writes. -/
def txV1 (s : Store) (userId : String) (referralId : Option String) : Except Unit Store :=
  match s.users userId with
  | none => Except.ok s
  | some data =>
    if data.coins.isNone then Except.error ()
    else
      match referralId with
      | some r =>
        if truthyStr data.refferBy = false ∧ r ≠ "" ∧ r ≠ userId then Except.error ()
        else txV1reward s userId data
      | none => txV1reward s userId data

/-- JS `String.prototype.split(' ')` on the underlying character list. -/
def splitSpaces : List Char → List (List Char)
  | [] => [[]]
  | c :: cs =>
    if c = ' ' then [] :: splitSpaces cs
    else
      match splitSpaces cs with
      | [] => [[c]]
      | p :: ps => (c :: p) :: ps

/-- JS `String.prototype.startsWith`: prefix test on the character lists. -/
def jsStartsWith (t pre : String) : Bool :=
  pre.toList.isPrefixOf t.toList

/-- Variants 1-2 `extractReferralId`, src lines 28-37.  `payload.replace('ref',
'')` removes the first occurrence of `"ref"`; under the `payload.startsWith
('ref')` guard that first occurrence is the leading three characters, so the
replace is exactly `drop 3`.  When the payload does not start with `"ref"` the
raw payload is returned (possibly `""`, which is falsy downstream, matching
the JS code returning the empty string). -/
def extractReferralId (text : String) : Option String :=
  if jsStartsWith text "/start" = false then none
  else
    let parts := splitSpaces text.toList
    if parts.length < 2 then none
    else
      let payload := parts.getD 1 []
      if jsStartsWith (String.mk payload) "ref" then some (String.mk (payload.drop 3))
      else some (String.mk payload)

/-- Variant 3's inline referral extraction, src lines 556-562: the raw
`parts[1]` with no prefix stripping. -/
def extractV3 (text : String) : Option String :=
  if jsStartsWith text "/start" then
    let parts := splitSpaces text.toList
    if parts.length > 1 then some (String.mk (parts.getD 1 [])) else none
  else none

/-- The identity merge `setDoc(userRef, { id, name, photoURL, frontendOpened:
true }, { merge: true })` shared by variant 1 (lines 81-87), variant 2 (lines
260-265) and variant 3's existing-user branch (lines 597-600): creates the
document when absent, otherwise overwrites exactly these four fields. -/
def mergeIdentity (s : Store) (uid nm : String) (photo : Option String) : Store :=
  let newDoc : UserDoc :=
    match s.users uid with
    | some d => { d with id := some uid, name := some nm, photoURL := photo,
                         frontendOpened := some true }
    | none => { id := some uid, name := some nm, photoURL := photo,
                frontendOpened := some true }
  { s with users := fun q => if q = uid then some newDoc else s.users q }

/-- Variant 3's new-user creation, src lines 586-596: a full document with
all defaults and `refferBy: referralId || null` - note the raw token is
stored with no comparison against the user's own id. -/
def createFullV3 (s : Store) (uid nm : String) (photo : Option String)
    (refId : Option String) : Store :=
  let newDoc : UserDoc :=
    { id := some uid, name := some nm, photoURL := photo,
      frontendOpened := some true, coins := some 0, reffer := some 0,
      refferBy := if truthyStr refId then refId else none,
      tasksCompleted := some 0, totalWithdrawals := some 0,
      rewardGiven := some false }
  { s with users := fun q => if q = uid then some newDoc else s.users q }

/-- The `message.from` object of an inbound Telegram update (`id` is the
already-stringified user id; the source always uses `id.toString()`). -/
structure TgFrom where
  id : String
  isBot : Bool
  firstName : Option String
  deriving Repr, DecidableEq

/-- The `message` object; `chat` is the chat id when `message.chat` is
present, `sender` models `message.from`. -/
structure TgMsg where
  chat : Option String
  sender : Option TgFrom
  text : Option String
  deriving Repr, DecidableEq

/-- An inbound HTTP request as the handler sees it. -/
structure TgReq where
  method : String
  message : Option TgMsg
  deriving Repr, DecidableEq

/-- Environment faults injected into a run: whether the reward transaction
fails (conflict exhaustion / transient store error), whether `sendPhoto`
rejects, and what `getUserProfilePhotos` yields (that helper catches its own
errors and returns null, so it only contributes a value). -/
structure Faults where
  txFails : Bool
  sendFails : Bool
  photoResult : Option String
  deriving Repr, DecidableEq

/-- Baseline fault assignment: nothing injected, no profile photo. -/
def noFaults : Faults := ⟨false, false, none⟩

/-- The observable result of one handler invocation: the HTTP status actually
sent (`none` when the function threw outside any try/catch and no response
was produced), the response body, the final store, and whether the welcome
`sendPhoto` call succeeded. -/
structure HRes where
  responded : Option Nat
  body : String
  state : Store
  welcomeSent : Bool

/-- Variant 1's `handler`, src lines 55-178: early 200s for non-POST,
missing/bot messages and non-`/start` texts; then the identity merge, the
transaction, and `sendPhoto`, all inside one try/catch whose catch responds
200 `'Error'`.  An error from the transaction (injected, or variant 1's own
deterministic read-after-write rejection) therefore skips `sendPhoto`. -/
def handlerV1 (s : Store) (req : TgReq) (f : Faults) : HRes :=
  if req.method ≠ "POST" then ⟨some 200, "Telegram Bot Webhook Active", s, false⟩
  else
    match req.message with
    | none => ⟨some 200, "OK", s, false⟩
    | some m =>
      match m.sender with
      | none => ⟨some 200, "OK", s, false⟩
      | some u =>
        if u.isBot then ⟨some 200, "OK", s, false⟩
        else
          let text := m.text.getD ""
          if jsStartsWith text "/start" = false then ⟨some 200, "OK", s, false⟩
          else
            let referralId := extractReferralId text
            let s1 := mergeIdentity s u.id (u.firstName.getD "User") f.photoResult
            let txRes := if f.txFails then Except.error () else txV1 s1 u.id referralId
            match txRes with
            | Except.error _ => ⟨some 200, "Error", s1, false⟩
            | Except.ok s2 =>
              if f.sendFails ∨ m.chat.isNone then ⟨some 200, "Error", s2, false⟩
              else ⟨some 200, "OK", s2, true⟩

/-- Variant 3's `handler`, src lines 539-637.  `msg.chat.id` and `msg.from.id`
are dereferenced at lines 549-550, before the try block: a message without
`chat` or `from` throws there and no response is produced (`responded =
none`).  Inside the try, the user is created or identity-merged, the reward
transaction runs with its errors suppressed by `processReferralReward`'s own
catch, `sendPhoto` errors are swallowed by the outer catch, and the final
`res.status(200).send('OK')` runs unconditionally after the try/catch. -/
def handlerV3 (s : Store) (req : TgReq) (f : Faults) : HRes :=
  match req.message with
  | none => ⟨some 200, "No message found", s, false⟩
  | some m =>
    match m.chat, m.sender with
    | some _, some u =>
      let text := m.text.getD ""
      let referralId := extractV3 text
      let s1 := if (s.users u.id).isNone then
          createFullV3 s u.id (u.firstName.getD "User") f.photoResult referralId
        else mergeIdentity s u.id (u.firstName.getD "User") f.photoResult
      let s2 := if f.txFails then s1 else (processReferralReward s1 u.id referralId).1
      ⟨some 200, "OK", s2, !f.sendFails⟩
    | _, _ => ⟨none, "", s, false⟩

/-- Sequential composition of `n` serialized runs of one transaction body;
Firestore serializes conflicting transactions, so any concurrent execution of
`n` copies is equivalent to some such sequence. -/
def iterProc (f : Store → Store) : Nat → Store → Store
  | 0, s => s
  | n + 1, s => iterProc f n (f s)

/-- Store for the C5 counterexample: subject `"U"` fully populated, referrer
`"R"` absent. -/
def c5store : Store :=
  ⟨fun k => if k = "U" then
      some { id := some "U", frontendOpened := some true, coins := some 0,
             reffer := some 0, tasksCompleted := some 0, totalWithdrawals := some 0,
             rewardGiven := some false }
    else none,
   fun _ => none⟩

/-- Writing one user record wholesale (used to state P5's "once the referrer
record is created" retry scenario). -/
def putUser (s : Store) (k : String) (d : UserDoc) : Store :=
  { s with users := fun q => if q = k then some d else s.users q }

/-- Request used for the C2 counterexample: a well-formed `/start` message
with a referral payload, sent by a brand-new human user. -/
def c2req : TgReq :=
  ⟨"POST", some ⟨some "chat1", some ⟨"5", false, some "Alice"⟩, some "/start ref99"⟩⟩

/-- Request used for the C10 counterexample: a POST whose body has a
`message` without a `chat` object. -/
def c10req : TgReq := ⟨"POST", some ⟨none, some ⟨"9", false, none⟩, none⟩⟩

/-- Request for the C4 failing input: user `"7"` sends `/start 7`, naming
itself as referrer. -/
def c4req : TgReq :=
  ⟨"POST", some ⟨some "c", some ⟨"7", false, some "A"⟩, some "/start 7"⟩⟩

/-- A subject record with every default field present, for concrete instantiations. -/
def wdU : UserDoc :=
  { id := some "U", frontendOpened := some true, coins := some 0, reffer := some 0,
    tasksCompleted := some 0, totalWithdrawals := some 0, rewardGiven := some false }

/-- A minimal referrer record with zero counters. -/
def wdR : UserDoc := { coins := some 0, reffer := some 0 }

/-- Store holding subject `"U"` and referrer `"R"` for the C1 instantiation. -/
def c1store : Store :=
  ⟨fun k => if k = "U" then some wdU else if k = "R" then some wdR else none,
   fun _ => none⟩

/-- Store holding only the referrer `"R1"` for the C3 instantiation. -/
def c3store : Store := ⟨fun k => if k = "R1" then some wdR else none, fun _ => none⟩

/-- A subject whose attribution is already stored, for the C6 instantiation. -/
def wdV : UserDoc := { refferBy := some "R0", rewardGiven := some false, coins := some 0 }

/-- Store for the C6 instantiation. -/
def c6store : Store := ⟨fun k => if k = "U" then some wdV else none, fun _ => none⟩

/-- Store for the C7 instantiation: subject `"U"` eligible for a reward. -/
def c7store : Store := ⟨fun k => if k = "U" then some wdU else none, fun _ => none⟩

/-- An existing record with every engine-owned field populated, for C9. -/
def wd9 : UserDoc :=
  { coins := some 7, reffer := some 3, refferBy := some "R",
    rewardGiven := some true, tasksCompleted := some 1, totalWithdrawals := some 2 }

/-- Store for the C9 instantiation. -/
def c9store : Store := ⟨fun k => if k = "U" then some wd9 else none, fun _ => none⟩

/-- A well-formed non-start message for the C10 instantiation. -/
def c10okreq : TgReq := ⟨"POST", some ⟨some "c", some ⟨"1", false, none⟩, some "hi"⟩⟩

/-! Helper lemmas about the JS truthiness helpers. -/

lemma truthyStr_some_ne {v : String} (h : v ≠ "") : truthyStr (some v) = true := by
  simp [truthyStr, h]

lemma truthyStr_true_iff (o : Option String) :
    truthyStr o = true ↔ ∃ v, o = some v ∧ v ≠ "" := by
  cases o with
  | none => simp [truthyStr]
  | some s =>
    by_cases hs : s = "" <;> simp [truthyStr, hs]

lemma truthyB_false_iff (o : Option Bool) : truthyB o = false ↔ o ≠ some true := by
  cases o with
  | none => simp [truthyB]
  | some b => cases b <;> simp [truthyB]

lemma txV2_token (s : Store) (u r : String) (d rd : UserDoc)
    (hu : s.users u = some d) (hrg : truthyB d.rewardGiven = false)
    (hcur : truthyStr d.refferBy = false) (hr : s.users r = some rd)
    (hru : r ≠ u) (hre : r ≠ "") :
    (∃ d1, (txV2 s u (some r)).users u = some d1 ∧ d1.rewardGiven = some true ∧
      d1.refferBy = some r ∧ d1.coins.isNone = false) ∧
    (txV2 s u (some r)).users r =
      some { rd with coins := some (jsOrZero rd.coins + 500),
                     reffer := some (jsOrZero rd.reffer + 1) } ∧
    (txV2 s u (some r)).rewards u = some ⟨u, r, 500⟩ ∧
    (∀ k, k ≠ u → (txV2 s u (some r)).rewards k = s.rewards k) ∧
    (∀ k, k ≠ u → k ≠ r → (txV2 s u (some r)).users k = s.users k) := by
  have hur : u ≠ r := fun h => hru h.symm
  have htr : truthyStr (some r) = true := truthyStr_some_ne hre
  by_cases hc : d.coins = none
  · simp only [txV2, hu]
    simp [hcur, htr, hrg, hre, hru, hr, hur, hc, commitUser, updateUser, setReward,
      UserUpdates.isEmptyU, applyU, ov]
    exact ⟨⟨d, hu⟩, fun k hk hk2 => absurd hk2 hk, fun k hk hkr => by simp [hk, hkr]⟩
  · simp only [txV2, hu]
    simp [hcur, htr, hrg, hre, hru, hr, hur, hc, commitUser, updateUser, setReward,
      UserUpdates.isEmptyU, applyU, ov]
    exact ⟨⟨d, hu, Option.ne_none_iff_isSome.mp hc⟩, fun k hk hk2 => absurd hk2 hk,
      fun k hk hkr => by simp [hk, hkr]⟩

lemma txV2_frozen (t : Store) (u : String) (tok : Option String) (e : UserDoc)
    (hu : t.users u = some e) (hrg : e.rewardGiven = some true)
    (hcoins : e.coins.isNone = false) (hcur : truthyStr e.refferBy = true) :
    txV2 t u tok = t := by
  obtain ⟨v, hv, hvne⟩ := (truthyStr_true_iff _).mp hcur
  simp only [txV2, hu]
  simp [hv, hvne, hrg, hcoins, truthyB, commitUser, UserUpdates.isEmptyU,
    truthyStr_some_ne hvne]

lemma iterProc_fixed (f : Store → Store) (t : Store) (hf : f t = t) :
    ∀ n, iterProc f n t = t := by
  intro n
  induction n with
  | zero => rfl
  | succ m ih => simp [iterProc, hf, ih]

lemma prr_token (s : Store) (u r : String) (d rd : UserDoc)
    (hu : s.users u = some d) (hrg : truthyB d.rewardGiven = false)
    (hcur : truthyStr d.refferBy = false) (hr : s.users r = some rd)
    (hru : r ≠ u) (hre : r ≠ "") :
    (∃ d1, ((processReferralReward s u (some r)).1).users u = some d1 ∧
      d1.rewardGiven = some true) ∧
    ((processReferralReward s u (some r)).1).users r =
      some { rd with coins := some (jsOrZero rd.coins + 500),
                     reffer := some (jsOrZero rd.reffer + 1) } ∧
    ((processReferralReward s u (some r)).1).rewards u = some ⟨u, r, 500⟩ ∧
    (∀ k, k ≠ u → ((processReferralReward s u (some r)).1).rewards k = s.rewards k) ∧
    (∀ k, k ≠ u → k ≠ r →
      ((processReferralReward s u (some r)).1).users k = s.users k) ∧
    (processReferralReward s u (some r)).2 = Outcome.Rewarded := by
  have hur : u ≠ r := fun h => hru h.symm
  simp only [processReferralReward, hu]
  simp [hcur, hrg, hre, hru, hur, hr, mergeIncrementReferrer, updateUser, setReward]
  exact ⟨⟨d, hu⟩, fun k hk hk2 => absurd hk2 hk, fun k hk hkr => by simp [hk, hkr]⟩

lemma prr_frozen (t : Store) (u : String) (tok : Option String) (e : UserDoc)
    (hu : t.users u = some e) (hrg : e.rewardGiven = some true) :
    (processReferralReward t u tok).1 = t := by
  cases tok with
  | none => rfl
  | some rid =>
    by_cases h1 : rid = ""
    · simp [processReferralReward, h1]
    · by_cases h2 : rid = u
      · subst h2
        simp [processReferralReward, h1]
      · simp [processReferralReward, h1, h2, hu, hrg, truthyB]

/-- C1.  Exactly-once reward: starting from any store in which the subject
`u` exists with a falsy `rewardGiven` and no stored referrer, the referrer
`r` exists, and every one of the `n ≥ 1` serialized `process(u, some r)`
runs carries the same token, the final store has exactly one ledger entry -
the one keyed by `u` - and the referrer's `coins`/`reffer` reflect exactly
one increment of 500/1, for the variant-2 transaction body and for variant
3's `processReferralReward` alike.  The induction's fixed point is exactly
the `rewardGiven` flag read inside the transaction: once it is `true`, every
later run returns without writing. -/
theorem C1_exactly_once (n : ℕ) (hn : 1 ≤ n) (s : Store) (u r : String) (d rd : UserDoc)
    (hu : s.users u = some d) (hrg : truthyB d.rewardGiven = false)
    (hcur : truthyStr d.refferBy = false) (hr : s.users r = some rd)
    (hru : r ≠ u) (hre : r ≠ "") :
    (iterProc (fun t => txV2 t u (some r)) n s).rewards u = some ⟨u, r, 500⟩ ∧
    (∀ k, k ≠ u →
      (iterProc (fun t => txV2 t u (some r)) n s).rewards k = s.rewards k) ∧
    ((iterProc (fun t => txV2 t u (some r)) n s).users r).bind UserDoc.coins =
      some (jsOrZero rd.coins + 500) ∧
    ((iterProc (fun t => txV2 t u (some r)) n s).users r).bind UserDoc.reffer =
      some (jsOrZero rd.reffer + 1) ∧
    ((iterProc (fun t => txV2 t u (some r)) n s).users u).bind UserDoc.rewardGiven =
      some true ∧
    (iterProc (fun t => (processReferralReward t u (some r)).1) n s).rewards u =
      some ⟨u, r, 500⟩ ∧
    (∀ k, k ≠ u →
      (iterProc (fun t => (processReferralReward t u (some r)).1) n s).rewards k =
        s.rewards k) ∧
    ((iterProc (fun t => (processReferralReward t u (some r)).1) n s).users r).bind
      UserDoc.coins = some (jsOrZero rd.coins + 500) ∧
    ((iterProc (fun t => (processReferralReward t u (some r)).1) n s).users r).bind
      UserDoc.reffer = some (jsOrZero rd.reffer + 1) ∧
    ((iterProc (fun t => (processReferralReward t u (some r)).1) n s).users u).bind
      UserDoc.rewardGiven = some true := by
  obtain ⟨m, rfl⟩ : ∃ m, n = m + 1 := ⟨n - 1, (Nat.succ_pred_eq_of_pos hn).symm⟩
  obtain ⟨⟨d1, hd1, hd1rg, hd1rb, hd1c⟩, hR2, hW2, hFr2, hFu2⟩ :=
    txV2_token s u r d rd hu hrg hcur hr hru hre
  obtain ⟨⟨d2, hd2, hd2rg⟩, hR3, hW3, hFr3, hFu3, _⟩ :=
    prr_token s u r d rd hu hrg hcur hr hru hre
  have hfix2 : txV2 (txV2 s u (some r)) u (some r) = txV2 s u (some r) :=
    txV2_frozen _ u _ d1 hd1 hd1rg hd1c (by rw [hd1rb]; exact truthyStr_some_ne hre)
  have hfix3 : (processReferralReward
      ((processReferralReward s u (some r)).1) u (some r)).1 =
      (processReferralReward s u (some r)).1 :=
    prr_frozen _ u _ d2 hd2 hd2rg
  have hit2 : iterProc (fun t => txV2 t u (some r)) (m + 1) s = txV2 s u (some r) := by
    show iterProc (fun t => txV2 t u (some r)) m (txV2 s u (some r)) = txV2 s u (some r)
    exact iterProc_fixed _ _ hfix2 m
  have hit3 : iterProc (fun t => (processReferralReward t u (some r)).1) (m + 1) s =
      (processReferralReward s u (some r)).1 := by
    show iterProc (fun t => (processReferralReward t u (some r)).1) m
        ((processReferralReward s u (some r)).1) = (processReferralReward s u (some r)).1
    exact iterProc_fixed _ _ hfix3 m
  rw [hit2, hit3]
  refine ⟨hW2, hFr2, ?_, ?_, ?_, hW3, hFr3, ?_, ?_, ?_⟩
  · simp [hR2]
  · simp [hR2]
  · simp [hd1, hd1rg]
  · simp [hR3]
  · simp [hR3]
  · simp [hd2, hd2rg]

/-- C3.  When a reward is due, the variant-2 transaction applies the whole
write set as one unit: for a brand-new user `u` (no prior record), a token
naming an existing referrer `r`, the single `ensureUser + process` pass sets
`refferBy`, sets `rewardGiven`, writes the default counters, credits the
referrer by exactly 500/1 and creates exactly one ledger entry keyed `u`. -/
theorem C3_reward_unit (s : Store) (u r nm : String) (p : Option String) (rd : UserDoc)
    (hu : s.users u = none) (hr : s.users r = some rd) (hru : r ≠ u) (hre : r ≠ "") :
    (txV2 (mergeIdentity s u nm p) u (some r)).users u =
      some { id := some u, name := some nm, photoURL := p, frontendOpened := some true,
             coins := some 0, reffer := some 0, refferBy := some r,
             tasksCompleted := some 0, totalWithdrawals := some 0,
             rewardGiven := some true } ∧
    (txV2 (mergeIdentity s u nm p) u (some r)).users r =
      some { rd with coins := some (jsOrZero rd.coins + 500),
                     reffer := some (jsOrZero rd.reffer + 1) } ∧
    (txV2 (mergeIdentity s u nm p) u (some r)).rewards u = some ⟨u, r, 500⟩ ∧
    (∀ k, k ≠ u → (txV2 (mergeIdentity s u nm p) u (some r)).rewards k = s.rewards k) := by
  have hur : u ≠ r := fun h => hru h.symm
  have h1 : (mergeIdentity s u nm p).users u =
      some { id := some u, name := some nm, photoURL := p, frontendOpened := some true } := by
    simp [mergeIdentity, hu]
  have h2 : (mergeIdentity s u nm p).users r = some rd := by
    simp [mergeIdentity, hru, hr]
  have h3 : (mergeIdentity s u nm p).rewards = s.rewards := rfl
  simp only [txV2, h1]
  simp [hre, hru, hur, h2, h3, truthyStr, truthyB, commitUser, updateUser, setReward,
    UserUpdates.isEmptyU, applyU, ov]
  exact ⟨⟨_, h1, rfl, rfl, rfl, rfl⟩, fun k hk hk2 => absurd hk2 hk⟩

lemma txV2_stored (t : Store) (u r : String) (tok : Option String) (e rd' : UserDoc)
    (ht : t.users u = some e) (hrg : truthyB e.rewardGiven = false)
    (hcoins : e.coins.isNone = false) (hcur : e.refferBy = some r) (hre : r ≠ "")
    (hru : r ≠ u) (hrd : t.users r = some rd') :
    (txV2 t u tok).rewards u = some ⟨u, r, 500⟩ ∧
    ((txV2 t u tok).users r).bind UserDoc.coins = some (jsOrZero rd'.coins + 500) ∧
    ((txV2 t u tok).users r).bind UserDoc.reffer = some (jsOrZero rd'.reffer + 1) ∧
    ((txV2 t u tok).users u).bind UserDoc.rewardGiven = some true := by
  have hur : u ≠ r := fun h => hru h.symm
  simp only [txV2, ht]
  simp [hcur, truthyStr_some_ne hre, hrg, hre, hcoins, hrd, hru, hur, commitUser,
    updateUser, setReward, UserUpdates.isEmptyU, applyU, ov]
  simp [ht, applyU, ov]

/-- C5 counterexample: in variant 3, with the referrer record absent, the
transaction still writes everything - it merge-creates the referrer document
with `coins = 500`, sets the subject's `rewardGiven`, and creates the ledger
entry - contradicting "the transaction performs no writes at all" and "the
subject remains eligible on a later retry". -/
theorem C5_counterexample :
    ((processReferralReward c5store "U" (some "R")).1.users "R").isSome = true ∧
    ((processReferralReward c5store "U" (some "R")).1.users "R").bind UserDoc.coins =
      some 500 ∧
    (processReferralReward c5store "U" (some "R")).1.rewards "U" =
      some ⟨"U", "R", 500⟩ ∧
    ((processReferralReward c5store "U" (some "R")).1.users "U").bind
      UserDoc.rewardGiven = some true := by
  exact ⟨rfl, rfl, rfl, rfl⟩

/-- C5 amended: in the variant-2 transaction a missing referrer yields no
reward writes - the ledger is untouched, no referrer document is created,
and the subject's `rewardGiven` is not set to true (though the subject's
defaults and `refferBy` are still written) - and after the referrer record
is created a retried run grants the reward exactly as specified; variant 3
instead performs all the reward writes even though the referrer record does
not exist (see the counterexample). -/
theorem C5_missing_referrer (s : Store) (u r : String) (d : UserDoc)
    (hu : s.users u = some d) (hrg : truthyB d.rewardGiven = false)
    (hcur : truthyStr d.refferBy = false) (hre : r ≠ "") (hru : r ≠ u)
    (hmiss : s.users r = none) :
    (∀ k, (txV2 s u (some r)).rewards k = s.rewards k) ∧
    (txV2 s u (some r)).users r = none ∧
    ((txV2 s u (some r)).users u).bind UserDoc.rewardGiven ≠ some true ∧
    ∀ rd' : UserDoc,
      (txV2 (putUser (txV2 s u (some r)) r rd') u (some r)).rewards u =
        some ⟨u, r, 500⟩ ∧
      ((txV2 (putUser (txV2 s u (some r)) r rd') u (some r)).users r).bind
        UserDoc.coins = some (jsOrZero rd'.coins + 500) ∧
      ((txV2 (putUser (txV2 s u (some r)) r rd') u (some r)).users u).bind
        UserDoc.rewardGiven = some true := by
  have hur : u ≠ r := fun h => hru h.symm
  by_cases hc : d.coins = none
  · have hA : (txV2 s u (some r)).users u =
        some { d with coins := some 0, reffer := some 0, tasksCompleted := some 0,
                      totalWithdrawals := some 0, rewardGiven := some false,
                      refferBy := some r } := by
      simp only [txV2, hu]
      simp [hcur, hre, hru, hur, hmiss, hc, truthyStr_some_ne hre, commitUser,
        updateUser, setReward, UserUpdates.isEmptyU, applyU, ov]
      exact ⟨d, hu, rfl, rfl, rfl, rfl⟩
    refine ⟨?_, ?_, ?_, ?_⟩
    · intro k
      simp only [txV2, hu]
      simp [hcur, hre, hru, hur, hmiss, hc, truthyStr_some_ne hre, commitUser,
        updateUser, setReward, UserUpdates.isEmptyU, applyU, ov]
    · simp only [txV2, hu]
      simp [hcur, hre, hru, hur, hmiss, hc, truthyStr_some_ne hre, commitUser,
        updateUser, setReward, UserUpdates.isEmptyU, applyU, ov]
    · simp [hA]
    · intro rd'
      have hres := txV2_stored (putUser (txV2 s u (some r)) r rd') u r (some r)
        { d with coins := some 0, reffer := some 0, tasksCompleted := some 0,
                 totalWithdrawals := some 0, rewardGiven := some false,
                 refferBy := some r } rd'
        (by simp [putUser, hur, hA]) rfl rfl rfl hre hru (by simp [putUser])
      exact ⟨hres.1, hres.2.1, hres.2.2.2⟩
  · have hA : (txV2 s u (some r)).users u =
        some { d with refferBy := some r } := by
      simp only [txV2, hu]
      simp [hcur, hre, hru, hur, hmiss, hc, truthyStr_some_ne hre, commitUser,
        updateUser, setReward, UserUpdates.isEmptyU, applyU, ov]
      exact ⟨d, hu, rfl, rfl, rfl, rfl, rfl, rfl, rfl, rfl, rfl⟩
    refine ⟨?_, ?_, ?_, ?_⟩
    · intro k
      simp only [txV2, hu]
      simp [hcur, hre, hru, hur, hmiss, hc, truthyStr_some_ne hre, commitUser,
        updateUser, setReward, UserUpdates.isEmptyU, applyU, ov]
    · simp only [txV2, hu]
      simp [hcur, hre, hru, hur, hmiss, hc, truthyStr_some_ne hre, commitUser,
        updateUser, setReward, UserUpdates.isEmptyU, applyU, ov]
    · simp [hA]
      exact (truthyB_false_iff d.rewardGiven).mp hrg
    · intro rd'
      have hres := txV2_stored (putUser (txV2 s u (some r)) r rd') u r (some r)
        { d with refferBy := some r } rd'
        (by simp [putUser, hur, hA]) hrg (by simpa [Option.isSome_iff_ne_none] using hc) rfl hre hru
        (by simp [putUser])
      exact ⟨hres.1, hres.2.1, hres.2.2.2⟩

/-- C6.  Write-once attribution: once a user's stored `refferBy` is a
non-empty string, neither the variant-2 transaction nor variant 3's
`processReferralReward` ever changes it, whatever token the new event
carries - the stored value always wins. -/
theorem C6_write_once (s : Store) (u : String) (tok : Option String) (d : UserDoc)
    (v : String) (hu : s.users u = some d) (hv : d.refferBy = some v) (hne : v ≠ "") :
    ((txV2 s u tok).users u).bind UserDoc.refferBy = some v ∧
    ((processReferralReward s u tok).1.users u).bind UserDoc.refferBy = some v := by
  have htv : truthyStr (some v) = true := truthyStr_some_ne hne
  refine ⟨?_, ?_⟩
  · simp only [txV2, hu]
    by_cases hc : d.coins = none <;>
      cases hrg : truthyB d.rewardGiven <;>
        rcases huv : s.users v with _ | dv <;>
          by_cases huv2 : u = v <;>
            simp_all [commitUser, updateUser, setReward, UserUpdates.isEmptyU,
              applyU, ov, mergeIncrementReferrer]
  · cases tok with
    | none => simp [processReferralReward, hu, hv]
    | some rid =>
      by_cases h1 : rid = ""
      · simp [processReferralReward, h1, hu, hv]
      · by_cases h2 : rid = u
        · simp only [processReferralReward, h1, h2]
          split <;> simp [hu, hv]
        · cases hrg : truthyB d.rewardGiven <;>
            by_cases huv2 : u = v <;>
              simp_all [processReferralReward, mergeIncrementReferrer, updateUser,
                setReward, commitUser, applyU, ov]

lemma prr_second (t : Store) (u rid : String) (h1 : rid ≠ "") (h2 : rid ≠ u)
    (e : UserDoc) (ht : t.users u = some e) (hrg : e.rewardGiven = some true) :
    processReferralReward t u (some rid) = (t, Outcome.AlreadyRewarded) := by
  simp [processReferralReward, h1, h2, ht, hrg, truthyB]

/-- C7.  Idempotent repeat: whenever a `processReferralReward` run ends in
`Rewarded` with final store `s1`, running it again with the very same
arguments returns `AlreadyRewarded` and the returned store is `s1` itself -
zero additional writes, every record and the ledger unchanged. -/
theorem C7_idempotent_repeat (s s1 : Store) (u : String) (tok : Option String)
    (h : processReferralReward s u tok = (s1, Outcome.Rewarded)) :
    processReferralReward s1 u tok = (s1, Outcome.AlreadyRewarded) := by
  cases tok with
  | none => simp [processReferralReward] at h
  | some rid =>
    by_cases h1 : rid = ""
    · simp [processReferralReward, h1] at h
    · by_cases h2 : rid = u
      · simp only [processReferralReward, h1, h2] at h
        split at h <;> simp at h
      · rcases hus : s.users u with _ | userData
        · simp [processReferralReward, h1, h2, hus] at h
        · rcases hrg : truthyB userData.rewardGiven
          · simp only [processReferralReward, h1, h2, hus, hrg] at h
            by_cases ha : truthyStr userData.refferBy = false
            · simp [ha, h1, Prod.ext_iff] at h
              subst h
              have hw : ∃ w, (setReward (updateUser (mergeIncrementReferrer
                  (updateUser s u fun d => { d with refferBy := some rid }) rid) u
                  fun d => { d with rewardGiven := some true }) u
                  ⟨u, rid, 500⟩).users u = some w ∧ w.rewardGiven = some true := by
                by_cases hc : u = rid <;>
                  simp [setReward, updateUser, mergeIncrementReferrer, hus, hc]
              obtain ⟨w, hw1, hw2⟩ := hw
              exact prr_second _ _ _ h1 h2 w hw1 hw2
            · rcases hrb : userData.refferBy with _ | v
              · rw [hrb] at ha
                simp [truthyStr] at ha
              · have hv : v ≠ "" := by
                  intro hveq
                  rw [hrb, hveq] at ha
                  simp [truthyStr] at ha
                simp [ha, hrb, hv, truthyStr_some_ne hv, Prod.ext_iff] at h
                subst h
                have hw : ∃ w, (setReward (updateUser (mergeIncrementReferrer s v) u
                    fun d => { d with rewardGiven := some true }) u
                    ⟨u, v, 500⟩).users u = some w ∧ w.rewardGiven = some true := by
                  by_cases hc : u = v <;>
                    simp [setReward, updateUser, mergeIncrementReferrer, hus, hc]
                obtain ⟨w, hw1, hw2⟩ := hw
                exact prr_second _ _ _ h1 h2 w hw1 hw2
          · simp [processReferralReward, h1, h2, hus, hrg] at h

/-- C9.  Repository frame condition: for a user whose record already exists,
the identity merge used by `ensureUser` (variants 1-2 setDoc-merge, variant
3's existing-user branch) writes only `id`, `name`, `photoURL` and
`frontendOpened`, and leaves `refferBy`, `rewardGiven`, `coins`, `reffer`,
`tasksCompleted` and `totalWithdrawals` exactly as they were. -/
theorem C9_frame (s : Store) (uid nm : String) (p : Option String) (d : UserDoc)
    (hu : s.users uid = some d) :
    (mergeIdentity s uid nm p).users uid =
      some { d with id := some uid, name := some nm, photoURL := p,
                    frontendOpened := some true } ∧
    ((mergeIdentity s uid nm p).users uid).bind UserDoc.refferBy = d.refferBy ∧
    ((mergeIdentity s uid nm p).users uid).bind UserDoc.rewardGiven = d.rewardGiven ∧
    ((mergeIdentity s uid nm p).users uid).bind UserDoc.coins = d.coins ∧
    ((mergeIdentity s uid nm p).users uid).bind UserDoc.reffer = d.reffer ∧
    ((mergeIdentity s uid nm p).users uid).bind UserDoc.tasksCompleted =
      d.tasksCompleted ∧
    ((mergeIdentity s uid nm p).users uid).bind UserDoc.totalWithdrawals =
      d.totalWithdrawals := by
  simp [mergeIdentity, hu]

/-- C2 counterexample: on variant 1, with no injected fault at all, a valid
first-time `/start` event makes the transaction body queue a defaults update
and then re-read the document, which the firestore SDK rejects; the shared
try/catch answers 200 `'Error'` and the welcome message is never sent - the
reward transaction's error did prevent the welcome message. -/
theorem C2_counterexample :
    (handlerV1 emptyStore c2req noFaults).welcomeSent = false ∧
    (handlerV1 emptyStore c2req noFaults).body = "Error" := by
  exact ⟨rfl, rfl⟩

/-- C2 amended: in variant 3 the welcome message is attempted regardless of
any reward-transaction failure (its errors are suppressed inside
`processReferralReward`), for every store, every message carrying `chat` and
`from`, and every fault assignment in which `sendPhoto` itself does not
fail; in variants 1-2 a transaction error aborts the request before
`sendPhoto` (see the counterexample). -/
theorem C2_welcome_independent (s : Store) (req : TgReq) (f : Faults) (m : TgMsg)
    (hm : req.message = some m) (hc : m.chat.isSome = true)
    (hs : m.sender.isSome = true) (hsend : f.sendFails = false) :
    (handlerV3 s req f).welcomeSent = true ∧
    (handlerV3 s req f).responded = some 200 := by
  obtain ⟨c, hc'⟩ := Option.isSome_iff_exists.mp hc
  obtain ⟨w, hs'⟩ := Option.isSome_iff_exists.mp hs
  simp [handlerV3, hm, hc', hs', hsend]

/-- C10 counterexample: variant 3 dereferences `msg.chat.id` before its try
block, so this request produces an uncaught TypeError and no response at all
- in particular not the claimed HTTP 200. -/
theorem C10_counterexample :
    (handlerV3 emptyStore c10req noFaults).responded = none ∧
    (handlerV3 emptyStore c10req noFaults).responded ≠ some 200 := by
  exact ⟨rfl, by decide⟩

/-- C10 amended: variant 1 answers HTTP 200 for every request, every store
and every fault assignment (non-POST, missing or bot messages, non-start
texts, transaction errors and sendPhoto errors included); variant 3 answers
200 whenever its `message`, if present, carries both `chat` and `from`, but
a message missing either crashes before the try block (see the
counterexample). -/
theorem C10_always_200 (s : Store) (req : TgReq) (f : Faults) :
    (handlerV1 s req f).responded = some 200 ∧
    ((∀ m, req.message = some m → m.chat.isSome = true ∧ m.sender.isSome = true) →
      (handlerV3 s req f).responded = some 200) := by
  constructor
  · unfold handlerV1
    dsimp only
    repeat' (first | rfl | split)
  · intro hwf
    unfold handlerV3
    rcases hreq : req.message with _ | m
    · rfl
    · obtain ⟨hc, hs⟩ := hwf m hreq
      obtain ⟨c, hc'⟩ := Option.isSome_iff_exists.mp hc
      obtain ⟨w, hs'⟩ := Option.isSome_iff_exists.mp hs
      simp [hc', hs']

/-- C4 evaluation at the failing input: variant 3's first-time creation
stores `refferBy = "7"` for user `"7"` - the user's own id, violating the
claimed guard `referredBy ≠ id` (the spec's I3) - even though the engine's
own self-check then refuses the reward, so no ledger entry appears. -/
theorem C4_self_referral_eval :
    ((handlerV3 emptyStore c4req noFaults).state.users "7").bind UserDoc.refferBy =
      some "7" ∧
    (handlerV3 emptyStore c4req noFaults).state.rewards "7" = none := by
  exact ⟨rfl, rfl⟩

lemma splitSpaces_no_space (p : List Char) (h : ' ' ∉ p) : splitSpaces p = [p] := by
  induction p with
  | nil => rfl
  | cons c cs ih =>
    simp only [List.mem_cons, not_or] at h
    obtain ⟨h1, h2⟩ := h
    have h1' : ¬ c = ' ' := fun hh => h1 hh.symm
    simp [splitSpaces, h1', ih h2]

lemma splitSpaces_start (p : List Char) (h : ' ' ∉ p) :
    splitSpaces ("/start ".toList ++ p) = [['/', 's', 't', 'a', 'r', 't'], p] := by
  have h0 : "/start ".toList = ['/', 's', 't', 'a', 'r', 't', ' '] := rfl
  rw [h0]
  simp [splitSpaces, splitSpaces_no_space p h]

/-- C8 counterexample: the token `"ref_R1"` of the spec's section 8 scenario
is mapped by `extractReferralId` to `"_R1"` - `replace('ref','')` strips the
three characters `"ref"`, not `"ref_"` - so the user is attributed to a
referrer id `"_R1"`, not to `"R1"` as the claim states; variant 3's inline
extraction does not strip anything at all. -/
theorem C8_counterexample :
    extractReferralId "/start ref_R1" = some "_R1" ∧
    extractV3 "/start ref_R1" = some "ref_R1" ∧
    ("_R1" : String) ≠ "R1" := by
  exact ⟨rfl, rfl, by decide⟩

/-- C8 amended: for every `/start` message with a space-free payload,
variants 1-2 pass the payload with its leading `"ref"` (exactly three
characters) stripped when present - so `"ref_R1"` yields `"_R1"` and
`"refR1"` yields `"R1"` - while variant 3 passes the raw payload unstripped;
with no payload both extractions pass null. -/
theorem C8_token_extraction (p : List Char) (hp : ' ' ∉ p) :
    extractReferralId (String.mk ("/start ".toList ++ p)) =
      some (String.mk (if ("ref".toList).isPrefixOf p then p.drop 3 else p)) ∧
    extractV3 (String.mk ("/start ".toList ++ p)) = some (String.mk p) ∧
    extractReferralId "/start" = none ∧
    extractV3 "/start" = none := by
  rw [show String.mk ("/start ".toList ++ p) =
    String.mk ('/' :: 's' :: 't' :: 'a' :: 'r' :: 't' :: ' ' :: p) from rfl]
  have hsw : jsStartsWith (String.mk ('/' :: 's' :: 't' :: 'a' :: 'r' :: 't' :: ' ' :: p))
      "/start" = true := by
    show ("/start".toList.isPrefixOf ('/' :: 's' :: 't' :: 'a' :: 'r' :: 't' :: ' ' :: p)) =
      true
    rw [show "/start".toList = ['/', 's', 't', 'a', 'r', 't'] from rfl]
    simp [List.isPrefixOf]
  have hsp : splitSpaces ('/' :: 's' :: 't' :: 'a' :: 'r' :: 't' :: ' ' :: p) =
      [['/', 's', 't', 'a', 'r', 't'], p] := splitSpaces_start p hp
  refine ⟨?_, ?_, rfl, rfl⟩
  · simp only [extractReferralId, hsw]
    rw [show (String.mk ('/' :: 's' :: 't' :: 'a' :: 'r' :: 't' :: ' ' :: p)).toList =
      '/' :: 's' :: 't' :: 'a' :: 'r' :: 't' :: ' ' :: p from rfl, hsp]
    rw [show ([['/', 's', 't', 'a', 'r', 't'], p] : List (List Char)).getD 1 [] = p from rfl]
    rw [show jsStartsWith (String.mk p) "ref" = ("ref".toList).isPrefixOf p from rfl]
    simp only [List.length_cons, List.length_nil, show ¬(0 + 1 + 1 < 2) from by omega,
      if_false, if_neg, Bool.true_eq_false, ite_false]
    split <;> rfl
  · simp only [extractV3, hsw]
    rw [show (String.mk ('/' :: 's' :: 't' :: 'a' :: 'r' :: 't' :: ' ' :: p)).toList =
      '/' :: 's' :: 't' :: 'a' :: 'r' :: 't' :: ' ' :: p from rfl, hsp]
    rw [show ([['/', 's', 't', 'a', 'r', 't'], p] : List (List Char)).getD 1 [] = p from rfl]
    simp

theorem C1_exactly_once_witness :
    (iterProc (fun t => txV2 t "U" (some "R")) 2 c1store).rewards "U" =
      some ⟨"U", "R", 500⟩ :=
  (C1_exactly_once 2 (by decide) c1store "U" "R" wdU wdR rfl rfl rfl rfl
    (by decide) (by decide)).1

theorem C2_welcome_independent_witness :
    (handlerV3 emptyStore c2req ⟨true, false, none⟩).welcomeSent = true :=
  (C2_welcome_independent emptyStore c2req ⟨true, false, none⟩
    ⟨some "chat1", some ⟨"5", false, some "Alice"⟩, some "/start ref99"⟩
    rfl rfl rfl rfl).1

theorem C3_reward_unit_witness :
    (txV2 (mergeIdentity c3store "U1" "Alice" none) "U1" (some "R1")).rewards "U1" =
      some ⟨"U1", "R1", 500⟩ :=
  (C3_reward_unit c3store "U1" "R1" "Alice" none wdR rfl rfl (by decide)
    (by decide)).2.2.1

theorem C5_missing_referrer_witness :
    (txV2 c5store "U" (some "R")).users "R" = none :=
  (C5_missing_referrer c5store "U" "R"
    { id := some "U", frontendOpened := some true, coins := some 0,
      reffer := some 0, tasksCompleted := some 0, totalWithdrawals := some 0,
      rewardGiven := some false }
    rfl rfl rfl (by decide) (by decide) rfl).2.1

theorem C6_write_once_witness :
    ((txV2 c6store "U" (some "X")).users "U").bind UserDoc.refferBy = some "R0" :=
  (C6_write_once c6store "U" (some "X") wdV "R0" rfl rfl (by decide)).1

theorem C7_idempotent_repeat_witness :
    processReferralReward ((processReferralReward c7store "U" (some "R")).1) "U"
      (some "R") = ((processReferralReward c7store "U" (some "R")).1,
        Outcome.AlreadyRewarded) :=
  C7_idempotent_repeat c7store _ "U" (some "R") rfl

theorem C8_token_extraction_witness :
    extractReferralId (String.mk ("/start ".toList ++ "ref_R1".toList)) =
      some (String.mk (if ("ref".toList).isPrefixOf "ref_R1".toList then
        "ref_R1".toList.drop 3 else "ref_R1".toList)) :=
  (C8_token_extraction "ref_R1".toList (by decide)).1

theorem C9_frame_witness :
    ((mergeIdentity c9store "U" "NewName" (some "pic")).users "U").bind
      UserDoc.coins = some 7 :=
  (C9_frame c9store "U" "NewName" (some "pic") wd9 rfl).2.2.2.1

theorem C10_always_200_witness :
    (handlerV1 emptyStore c10okreq noFaults).responded = some 200 ∧
    (handlerV3 emptyStore c10okreq noFaults).responded = some 200 :=
  ⟨(C10_always_200 emptyStore c10okreq noFaults).1,
   (C10_always_200 emptyStore c10okreq noFaults).2
     (fun m hm => by cases hm; exact ⟨rfl, rfl⟩)⟩
